import Mathlib

/-!
Shallow embedding of the pyxcursor codec
(`src/pyxcursor/cursor.py`, `src/pyxcursor/xcursor.py`).

Byte streams are `List Nat` (each entry a byte value, < 256 in well-formed
data).  Python exceptions raised by the codec are modelled as error values
of type `XcError`; `struct.pack('<I', n)` is modelled as taking the low
32 bits of `n` (the Python call raises for out-of-range arguments, so the
theorems below carry `< 2^32` bounds wherever a packed value matters).
-/

/-- A PIL RGBA image as the codec observes it: `np.asarray(img)` has shape
`(height, width, 4)`, so `data` is the flat RGBA byte sequence, row-major
with `height` rows of `width` pixels, 4 bytes per pixel (length
`width * height * 4` for a real PIL image).  `Image.fromarray(a, 'RGBA')`
on an array of shape `(r, c, 4)` yields the image `⟨c, r, flatten a⟩`
(PIL size is `(columns, rows)`). -/
structure PILImage where
  width : Nat
  height : Nat
  data : List Nat
deriving DecidableEq, Repr

/-- `CursorFrame` dataclass of `cursor.py` (lines 6-14): an image, a
hotspot pair (default `(0, 0)`) and a duration in ms (default 50). -/
structure CursorFrame where
  image : PILImage
  hot_spot : Nat × Nat := (0, 0)
  duration : Nat := 50
deriving DecidableEq, Repr

/-- `Cursor` dataclass of `cursor.py` (lines 16-18): the `frames` field
defaults to Python `None`, modelled as `none`; an actual list is `some`. -/
structure Cursor where
  frames : Option (List CursorFrame) := none
deriving DecidableEq, Repr

/-- Python exceptions the codec can raise, as error values:
`badMagic` = the `AssertionError` from the magic-string assert
(xcursor.py line 31); `shortRead` = `struct.error` when `struct.unpack`
gets a buffer shorter than its format; `badReshape` = the numpy
`ValueError` when `reshape((w, h, 4))` is applied to a pixel buffer
shorter than `w*h*4` bytes (line 110); `lenOfNone` = the `TypeError` from
`len(cursor.frames)` when `frames` is `None` (line 144). -/
inductive XcError where
  | badMagic
  | shortRead
  | badReshape
  | lenOfNone
deriving DecidableEq, Repr

/-- A readable binary stream: underlying bytes plus a read position.
Models the `io.BufferedReader` used by `open_xcursor`. -/
structure RStream where
  data : List Nat
  pos : Nat
deriving DecidableEq, Repr

/-- Python `f.read(n)`: returns up to `n` bytes from the current position
(fewer at end of stream, never an error) and advances the position by the
number of bytes actually returned. -/
def RStream.read (s : RStream) (n : Nat) : List Nat × RStream :=
  let bs := (s.data.drop s.pos).take n
  (bs, ⟨s.data, s.pos + bs.length⟩)

/-- Python `f.seek(p)` (absolute). -/
def RStream.seek (s : RStream) (p : Nat) : RStream := ⟨s.data, p⟩

/-- Little-endian unsigned 32-bit value from four bytes, as
`struct.unpack('<I', ...)` computes it. -/
def u32le (b0 b1 b2 b3 : Nat) : Nat :=
  b0 + 256 * b1 + 65536 * b2 + 16777216 * b3

/-- `struct.pack('<I', n)`: the four little-endian bytes of `n`
(low 32 bits; the Python call raises for `n ≥ 2^32`, theorems below
assume in-range values where it matters). -/
def packU32 (n : Nat) : List Nat :=
  [n % 256, n / 256 % 256, n / 65536 % 256, n / 16777216 % 256]

/-- The string tags `'comment'` / `'image'` that `open_xcursor` maps the
numeric chunk types to (xcursor.py lines 56-59); unknown numeric types
have no tag — the entry is skipped (`continue`) before being recorded. -/
inductive ChunkTag where
  | comment
  | image
deriving DecidableEq, Repr

/-- The channel swap `np.stack((a[:,:,2], a[:,:,1], a[:,:,0], a[:,:,3]), 2)`
viewed on the flat byte sequence: each 4-byte sample `[c0,c1,c2,c3]`
becomes `[c2,c1,c0,c3]`.  Used by the decoder (xcursor.py lines 111-116)
and the encoder (lines 185-191), which perform the identical index swap. -/
def swapCh02 : List Nat → List Nat
  | c0 :: c1 :: c2 :: c3 :: rest => c2 :: c1 :: c0 :: c3 :: swapCh02 rest
  | l => l

/-- Table-of-contents loop of `open_xcursor` (xcursor.py lines 50-71):
read `n` entries of 12 bytes `(type, subtype, position)`; entries whose
type is `0xfffe0001` / `0xfffd0002` are recorded as
`('comment', position)` / `('image', position)` in table order; any other
type hits `continue` and is not recorded.  A short `struct.unpack` read is
a `struct.error`. -/
def parseTOC : RStream → Nat → Except XcError (List (ChunkTag × Nat) × RStream)
  | s, 0 => .ok ([], s)
  | s, n + 1 =>
    let r := s.read 12
    match r.1 with
    | [t0, t1, t2, t3, _, _, _, _, p0, p1, p2, p3] =>
      let t := u32le t0 t1 t2 t3
      let p := u32le p0 p1 p2 p3
      match parseTOC r.2 n with
      | .error err => .error err
      | .ok (rest, s2) =>
        if t = 0xfffe0001 then .ok ((ChunkTag.comment, p) :: rest, s2)
        else if t = 0xfffd0002 then .ok ((ChunkTag.image, p) :: rest, s2)
        else .ok (rest, s2)
    | _ => .error .shortRead

/-- One iteration of the chunk loop of `open_xcursor` (xcursor.py lines
77-124): seek to the recorded position, read the 8-byte chunk header
`(header_size, actual_type)`, re-derive the tag from `actual_type`
(unknown → skip, comment → `pass`), and for an image chunk read the
7 × u32 body fields then exactly `w*h*4` pixel bytes.
`reshape((w, h, 4))` of the byte buffer followed by
`Image.fromarray(…, 'RGBA')` yields an image of width `h` and height `w`
(PIL size is `(columns, rows)` of the array), with the flat byte order
preserved by both the reshape and the channel stack. -/
def readChunk (s : RStream) (chunk : ChunkTag × Nat) :
    Except XcError (Option CursorFrame × RStream) :=
  let r := (s.seek chunk.2).read 8
  match r.1 with
  | [_, _, _, _, a0, a1, a2, a3] =>
    let actual := u32le a0 a1 a2 a3
    if actual = 0xfffe0001 then .ok (none, r.2)
    else if actual = 0xfffd0002 then
      let rb := r.2.read 28
      match rb.1 with
      | [_, _, _, _, _, _, _, _,
         w0, w1, w2, w3, h0, h1, h2, h3,
         x0, x1, x2, x3, y0, y1, y2, y3, d0, d1, d2, d3] =>
        let w := u32le w0 w1 w2 w3
        let h := u32le h0 h1 h2 h3
        let xhot := u32le x0 x1 x2 x3
        let yhot := u32le y0 y1 y2 y3
        let delay := u32le d0 d1 d2 d3
        let rp := rb.2.read (w * h * 4)
        if rp.1.length = w * h * 4 then
          .ok (some ⟨⟨h, w, swapCh02 rp.1⟩, (xhot, yhot), delay⟩, rp.2)
        else .error .badReshape
      | _ => .error .shortRead
    else .ok (none, r.2)
  | _ => .error .shortRead

/-- The chunk loop of `open_xcursor` over the recorded table entries, in
table order, accumulating the image frames (comment and unknown-typed
chunks contribute nothing). -/
def readChunks : RStream → List (ChunkTag × Nat) → Except XcError (List CursorFrame)
  | _, [] => .ok []
  | s, c :: rest =>
    match readChunk s c with
    | .error e => .error e
    | .ok (fr?, s1) =>
      match readChunks s1 rest with
      | .error e => .error e
      | .ok fs =>
        match fr? with
        | some fr => .ok (fr :: fs)
        | none => .ok fs

/-- `open_xcursor` (xcursor.py lines 19-129) on the bytes of the stream:
check the 4-byte magic `b'Xcur'` (assert, line 31), read and discard the
4-byte header size, read the 4 version bytes and the u32 entry count,
parse the table of contents, then read the chunks and wrap the frames in
a `Cursor`. -/
def open_xcursor (data : List Nat) : Except XcError Cursor :=
  let s : RStream := ⟨data, 0⟩
  let rm := s.read 4
  if rm.1 = [88, 99, 117, 114] then
    let rh := rm.2.read 4
    match rh.1 with
    | [_, _, _, _] =>
      let rv := rh.2.read 8
      match rv.1 with
      | [_, _, _, _, n0, n1, n2, n3] =>
        let n_entry := u32le n0 n1 n2 n3
        match parseTOC rv.2 n_entry with
        | .error e => .error e
        | .ok (chunks, s4) =>
          match readChunks s4 chunks with
          | .error e => .error e
          | .ok frames => .ok ⟨some frames⟩
      | _ => .error .shortRead
    | _ => .error .shortRead
  else .error .badMagic

/-- A writable random-access byte sink with a write position, modelling
the `io.BufferedWriter` used by `save_xcursor` (writes overwrite in place
and extend at the end; `tell` is `pos`). -/
structure WBuf where
  data : List Nat
  pos : Nat
deriving DecidableEq, Repr

/-- Python `f.write(bs)` on a random-access sink: overwrite `bs.length`
bytes at the current position (extending the data when writing at the
end) and advance the position. -/
def WBuf.write (b : WBuf) (bs : List Nat) : WBuf :=
  ⟨b.data.take b.pos ++ bs ++ b.data.drop (b.pos + bs.length), b.pos + bs.length⟩

/-- Python `f.seek(p)` (absolute) on the sink. -/
def WBuf.seek (b : WBuf) (p : Nat) : WBuf := ⟨b.data, p⟩

/-- Loop body of `save_xcursor` (xcursor.py lines 154-193) for one frame,
threading the sink and the table-of-contents write pointer: record
`chunk_start = tell()`, backpatch the 12-byte table entry
`(0xfffd0002, width, chunk_start)` at the pointer, seek back, write the
36-byte chunk header
`(36, 0xfffd0002, width, 1, width, height, xhot, yhot, duration)`, then
the frame's pixel bytes with channels 0 and 2 of each sample swapped
(RGBA → BGRA). -/
def writeFrame (st : WBuf × Nat) (frame : CursorFrame) : WBuf × Nat :=
  let b := st.1
  let toc := st.2
  let chunk_start := b.pos
  let b1 := (b.seek toc).write
    (packU32 0xfffd0002 ++ packU32 frame.image.width ++ packU32 chunk_start)
  let toc1 := b1.pos
  let b2 := b1.seek chunk_start
  let b3 := b2.write
    (packU32 36 ++ packU32 0xfffd0002 ++ packU32 frame.image.width ++ packU32 1 ++
     packU32 frame.image.width ++ packU32 frame.image.height ++
     packU32 frame.hot_spot.1 ++ packU32 frame.hot_spot.2 ++ packU32 frame.duration)
  let b4 := b3.write (swapCh02 frame.image.data)
  (b4, toc1)

/-- `save_xcursor` (xcursor.py lines 132-193), producing the bytes of the
written file: magic `b'Xcur'`, header size 16, version bytes
`(0, 0, 1, 0)`, entry count, a zero placeholder for the table of
contents (`bytes(n * 4 * 3)`), then the frame chunks with table
backpatching.  When `cursor.frames` is Python `None`, `len(cursor.frames)`
on line 144 raises `TypeError` (after the 4 magic bytes were already
written; the failed call produces no usable output, modelled as the
error value). -/
def save_xcursor (cursor : Cursor) : Except XcError (List Nat) :=
  match cursor.frames with
  | none => .error .lenOfNone
  | some frames =>
    let b0 : WBuf := ⟨[], 0⟩
    let b1 := b0.write [88, 99, 117, 114]
    let b2 := b1.write (packU32 16 ++ [0, 0, 1, 0] ++ packU32 frames.length)
    let toc0 := b2.pos
    let b3 := b2.write (List.replicate (frames.length * 4 * 3) 0)
    .ok (frames.foldl writeFrame (b3, toc0)).1.data

/-- How a caller hands the decoder its input (xcursor.py lines 19-24):
a path (the codec itself opens a handle on the named file's bytes) or an
already-open handle. -/
inductive FileArg where
  | path (data : List Nat)
  | handle (data : List Nat)
deriving DecidableEq, Repr

/-- Handle lifecycle events performed by the codec on the underlying file
handle. -/
inductive FileOp where
  | openFile
  | close
deriving DecidableEq, Repr

/-- `open_xcursor` with its handle lifecycle trace: given a path it calls
`open(file, 'rb')` (xcursor.py lines 21-22); the body of the function
(lines 19-129) contains no `close()` call and no `with` block on any
path, success or error, so the trace never contains `close`.  A handle
passed in open is used as-is (line 24). -/
def open_xcursor_file (file : FileArg) : Except XcError Cursor × List FileOp :=
  match file with
  | .path data => (open_xcursor data, [FileOp.openFile])
  | .handle data => (open_xcursor data, [])

/-- How a caller hands the encoder its output sink (xcursor.py lines
133-136): a path (the codec opens the file for writing) or an open
handle. -/
inductive WriteTarget where
  | path
  | handle
deriving DecidableEq, Repr

/-- `save_xcursor` with its handle lifecycle trace: given a path it calls
`open(file, 'wb')` (xcursor.py lines 133-134); the body (lines 132-193)
contains no `close()` call and no `with` block on any path, so the trace
never contains `close`. -/
def save_xcursor_file (cursor : Cursor) (file : WriteTarget) :
    Except XcError (List Nat) × List FileOp :=
  match file with
  | .path => (save_xcursor cursor, [FileOp.openFile])
  | .handle => (save_xcursor cursor, [])

/-- Bytes of one 12-byte table-of-contents entry `(type, subtype,
position)`, for hand-building test files. -/
def tocEntryBytes (t st p : Nat) : List Nat :=
  packU32 t ++ packU32 st ++ packU32 p

/-- Bytes of an image chunk body `(36, 0xfffd0002, subtype, 1, w, h,
xhot, yhot, delay)` followed by the raw pixel payload, for hand-building
test files. -/
def imageChunkBytes (st w h xh yh d : Nat) (pix : List Nat) : List Nat :=
  packU32 36 ++ packU32 0xfffd0002 ++ packU32 st ++ packU32 1 ++
  packU32 w ++ packU32 h ++ packU32 xh ++ packU32 yh ++ packU32 d ++ pix

/-- The 16-byte fixed file header with entry count `n`, for hand-building
test files (matches what `save_xcursor` emits). -/
def xcHeaderBytes (n : Nat) : List Nat :=
  [88, 99, 117, 114] ++ packU32 16 ++ [0, 0, 1, 0] ++ packU32 n

/-- Bytes of a whole table of contents, entry by entry. -/
def tocBytes : List (Nat × Nat × Nat) → List Nat
  | [] => []
  | (t, st, p) :: rest => tocEntryBytes t st p ++ tocBytes rest

/-- The retention policy of the table-of-contents loop (xcursor.py lines
56-71) applied to one raw entry `(type, subtype, position)`: Comment and
Image entries map to their recorded `(tag, position)` pair, any other
type to `none` (the loop's `continue` drops it). -/
def entryTag (e : Nat × Nat × Nat) : Option (ChunkTag × Nat) :=
  if e.1 = 0xfffe0001 then some (ChunkTag.comment, e.2.2)
  else if e.1 = 0xfffd0002 then some (ChunkTag.image, e.2.2)
  else none

/-- Hand-built file whose table of contents is an Image entry, an entry
with an arbitrary (unknown) type `u`, then a second Image entry; the two
image chunk bodies follow in that physical order (first at offset 52,
second at offset `88 + pix1.length`). -/
def fileWithUnknownBetween (u su pu : Nat) (st1 w1 h1 xh1 yh1 d1 : Nat)
    (pix1 : List Nat) (st2 w2 h2 xh2 yh2 d2 : Nat) (pix2 : List Nat) : List Nat :=
  xcHeaderBytes 3 ++
  tocEntryBytes 0xfffd0002 st1 52 ++
  tocEntryBytes u su pu ++
  tocEntryBytes 0xfffd0002 st2 (88 + pix1.length) ++
  imageChunkBytes st1 w1 h1 xh1 yh1 d1 pix1 ++
  imageChunkBytes st2 w2 h2 xh2 yh2 d2 pix2

/-- Hand-built file whose table of contents lists two Image entries in
reverse physical order: the first table entry points at the chunk stored
last in the file (offset `76 + pixB.length`), the second table entry at
the chunk stored first (offset 40). -/
def fileReversePhysical (stA wA hA xhA yhA dA : Nat) (pixA : List Nat)
    (stB wB hB xhB yhB dB : Nat) (pixB : List Nat) : List Nat :=
  xcHeaderBytes 2 ++
  tocEntryBytes 0xfffd0002 stA (76 + pixB.length) ++
  tocEntryBytes 0xfffd0002 stB 40 ++
  imageChunkBytes stB wB hB xhB yhB dB pixB ++
  imageChunkBytes stA wA hA xhA yhA dA pixA

/-- Hand-built file with a single Image entry whose declared pixel
payload is cut short: the stream ends after `pix`, which is shorter than
the declared `w * h * 4` bytes. -/
def truncatedFile (st w h xh yh d : Nat) (pix : List Nat) : List Nat :=
  xcHeaderBytes 1 ++ tocEntryBytes 0xfffd0002 st 28 ++
  imageChunkBytes st w h xh yh d pix

deriving instance DecidableEq for Except

/-! Helper lemmas shared by the claim theorems. -/

theorem swapCh02_length (l : List Nat) : (swapCh02 l).length = l.length := by
  induction l using swapCh02.induct <;> simp [swapCh02, *]

theorem u32le_pack (n : Nat) :
    u32le (n % 256) (n / 256 % 256) (n / 65536 % 256) (n / 16777216 % 256) =
      n % 4294967296 := by
  simp only [u32le]; omega

theorem u32le_pack_lt {n : Nat} (h : n < 4294967296) :
    u32le (n % 256) (n / 256 % 256) (n / 65536 % 256) (n / 16777216 % 256) = n := by
  rw [u32le_pack]; exact Nat.mod_eq_of_lt h

theorem read_exact (data : List Nat) (pos n : Nat) (l rest : List Nat)
    (hl : l.length = n) (hd : data.drop pos = l ++ rest) :
    RStream.read ⟨data, pos⟩ n = (l, ⟨data, pos + n⟩) := by
  simp only [RStream.read]
  rw [hd, List.take_left' hl]
  simp [hl]

theorem drop_advance (data : List Nat) (pos n : Nat) (l rest : List Nat)
    (hl : l.length = n) (hd : data.drop pos = l ++ rest) :
    data.drop (pos + n) = rest := by
  have h2 := List.drop_drop n pos data
  rw [hd, List.drop_left' hl] at h2
  exact h2.symm

theorem parseTOC_eq (entries : List (Nat × Nat × Nat)) :
    ∀ (data rest : List Nat) (pos : Nat),
    data.drop pos = tocBytes entries ++ rest →
    (∀ e ∈ entries, e.1 < 4294967296 ∧ e.2.2 < 4294967296) →
    parseTOC ⟨data, pos⟩ entries.length =
      .ok (entries.filterMap entryTag, ⟨data, pos + 12 * entries.length⟩) := by
  induction entries with
  | nil =>
    intro data rest pos hd hb
    simp [parseTOC]
  | cons e tail ih =>
    intro data rest pos hd hb
    obtain ⟨t, st, p⟩ := e
    have hdA : data.drop pos = tocEntryBytes t st p ++ (tocBytes tail ++ rest) := by
      simpa [tocBytes, List.append_assoc] using hd
    have hlen : (tocEntryBytes t st p).length = 12 := by
      simp [tocEntryBytes, packU32]
    have hread := read_exact data pos 12 _ _ hlen hdA
    have hdrop := drop_advance data pos 12 _ _ hlen hdA
    have hbt := (hb (t, st, p) (List.mem_cons_self _ _)).1
    have hbp := (hb (t, st, p) (List.mem_cons_self _ _)).2
    have hib : ∀ e ∈ tail, e.1 < 4294967296 ∧ e.2.2 < 4294967296 :=
      fun e he => hb e (List.mem_cons_of_mem _ he)
    have hih := ih data rest (pos + 12) hdrop hib
    simp only [List.length_cons, parseTOC, hread]
    simp only [tocEntryBytes, packU32, List.cons_append, List.nil_append, List.append_assoc]
    rw [u32le_pack_lt hbt, u32le_pack_lt hbp]
    rw [hih]
    have harith : pos + 12 + 12 * tail.length = pos + 12 * (tail.length + 1) := by ring
    rw [harith]
    by_cases h1 : t = 0xfffe0001
    · simp [h1, List.filterMap_cons, entryTag]
    · by_cases h2 : t = 0xfffd0002
      · simp [h1, h2, List.filterMap_cons, entryTag]
      · simp [h1, h2, List.filterMap_cons, entryTag]

theorem packBytes_sum {n : Nat} (h : n < 4294967296) :
    n % 256 + 256 * (n / 256 % 256) + 65536 * (n / 65536 % 256) +
      16777216 * (n / 16777216 % 256) = n := by
  omega

theorem readChunk_image_eq (data : List Nat) (pos o st w h xh yh d : Nat)
    (pix rest : List Nat) (tag : ChunkTag)
    (hd : data.drop o = imageChunkBytes st w h xh yh d pix ++ rest)
    (hw : w < 4294967296) (hh : h < 4294967296) (hx : xh < 4294967296)
    (hy : yh < 4294967296) (hdl : d < 4294967296)
    (hlen : pix.length = w * h * 4) :
    readChunk ⟨data, pos⟩ (tag, o) =
      .ok (some ⟨⟨h, w, swapCh02 pix⟩, (xh, yh), d⟩, ⟨data, o + 36 + w * h * 4⟩) := by
  have hd8 : data.drop o =
      (packU32 36 ++ packU32 0xfffd0002) ++
      ((packU32 st ++ packU32 1 ++ packU32 w ++ packU32 h ++
        packU32 xh ++ packU32 yh ++ packU32 d) ++ (pix ++ rest)) := by
    simpa [imageChunkBytes, List.append_assoc] using hd
  have hr8 := read_exact data o 8 _ _ (by simp [packU32]) hd8
  have hdrop8 := drop_advance data o 8 _ _ (by simp [packU32]) hd8
  have hr28 := read_exact data (o + 8) 28 _ _ (by simp [packU32]) hdrop8
  have hdrop28 := drop_advance data (o + 8) 28 _ _ (by simp [packU32]) hdrop8
  have hdrop36 : data.drop (o + 36) = pix ++ rest := by
    have h36 : o + 8 + 28 = o + 36 := by ring
    rwa [h36] at hdrop28
  have hrpix := read_exact data (o + 36) (w * h * 4) pix rest hlen hdrop36
  have h3628 : o + 8 + 28 = o + 36 := by ring
  rw [h3628] at hr28
  simp only [packU32, List.cons_append, List.nil_append] at hr28
  simp only [readChunk, RStream.seek, hr8]
  simp only [packU32, List.cons_append, List.nil_append]
  norm_num [u32le]
  rw [hr28]
  norm_num
  rw [packBytes_sum hw, packBytes_sum hh, packBytes_sum hx, packBytes_sum hy,
    packBytes_sum hdl]
  rw [hrpix]
  simp [hlen]

theorem readChunk_some_len {s : RStream} {c : ChunkTag × Nat} {fr : CursorFrame}
    {s1 : RStream} (hr : readChunk s c = .ok (some fr, s1)) :
    fr.image.data.length = fr.image.width * fr.image.height * 4 := by
  simp only [readChunk] at hr
  split at hr
  case h_2 => exact absurd hr (by simp)
  case h_1 a0 a1 a2 a3 heq =>
    split at hr
    · exact absurd hr (by simp)
    · split at hr
      · split at hr
        case isTrue.h_2 => exact absurd hr (by simp)
        case isTrue.h_1 w0 w1 w2 w3 h0 h1 h2 h3 x0 x1 x2 x3 y0 y1 y2 y3 d0 d1 d2 d3 heq2 =>
          split at hr
          case isTrue hlen =>
            rw [Except.ok.injEq, Prod.mk.injEq, Option.some.injEq] at hr
            obtain ⟨hfr, -⟩ := hr
            subst hfr
            simp [swapCh02_length, hlen, Nat.mul_comm]
          case isFalse => exact absurd hr (by simp)
      · exact absurd hr (by simp)

theorem readChunks_len {s : RStream} {cs : List (ChunkTag × Nat)} {fs : List CursorFrame}
    (hr : readChunks s cs = .ok fs) :
    ∀ fr ∈ fs, fr.image.data.length = fr.image.width * fr.image.height * 4 := by
  induction cs generalizing s fs with
  | nil =>
    simp only [readChunks, Except.ok.injEq] at hr
    subst hr
    simp
  | cons c rest ih =>
    simp only [readChunks] at hr
    split at hr
    · exact absurd hr (by simp)
    case h_2 fr? s1 heq =>
      split at hr
      · exact absurd hr (by simp)
      case h_2 fs' heq2 =>
        split at hr
        case h_1 fr =>
          rw [Except.ok.injEq] at hr
          subst hr
          intro f hf
          rcases List.mem_cons.mp hf with hf | hf
          · subst hf
            exact readChunk_some_len heq
          · exact ih heq2 f hf
        case h_2 =>
          rw [Except.ok.injEq] at hr
          subst hr
          exact ih heq2

theorem open_xcursor_frames_len {data : List Nat} {fs : List CursorFrame}
    (hr : open_xcursor data = .ok ⟨some fs⟩) :
    ∀ fr ∈ fs, fr.image.data.length = fr.image.width * fr.image.height * 4 := by
  simp only [open_xcursor] at hr
  split at hr
  case isFalse => exact absurd hr (by simp)
  case isTrue =>
    split at hr
    case h_2 => exact absurd hr (by simp)
    case h_1 =>
      split at hr
      case h_2 => exact absurd hr (by simp)
      case h_1 =>
        split at hr
        case h_1 => exact absurd hr (by simp)
        case h_2 chunks s4 heq =>
          split at hr
          case h_1 => exact absurd hr (by simp)
          case h_2 frames heq2 =>
            rw [Except.ok.injEq, Cursor.mk.injEq, Option.some.injEq] at hr
            subst hr
            exact readChunks_len heq2

theorem readChunk_image_truncated (data : List Nat) (pos o st w h xh yh d : Nat)
    (pix : List Nat) (tag : ChunkTag)
    (hd : data.drop o = imageChunkBytes st w h xh yh d pix)
    (hw : w < 4294967296) (hh : h < 4294967296)
    (hshort : pix.length < w * h * 4) :
    readChunk ⟨data, pos⟩ (tag, o) = .error .badReshape := by
  have hd8 : data.drop o =
      (packU32 36 ++ packU32 0xfffd0002) ++
      ((packU32 st ++ packU32 1 ++ packU32 w ++ packU32 h ++
        packU32 xh ++ packU32 yh ++ packU32 d) ++ (pix ++ [])) := by
    simpa [imageChunkBytes, List.append_assoc] using hd
  have hr8 := read_exact data o 8 _ _ (by simp [packU32]) hd8
  have hdrop8 := drop_advance data o 8 _ _ (by simp [packU32]) hd8
  have hr28 := read_exact data (o + 8) 28 _ _ (by simp [packU32]) hdrop8
  have hdrop28 := drop_advance data (o + 8) 28 _ _ (by simp [packU32]) hdrop8
  have hdrop36 : data.drop (o + 36) = pix := by
    have h36 : o + 8 + 28 = o + 36 := by ring
    rw [h36] at hdrop28
    simpa using hdrop28
  have h3628 : o + 8 + 28 = o + 36 := by ring
  rw [h3628] at hr28
  simp only [packU32, List.cons_append, List.nil_append] at hr28
  simp only [readChunk, RStream.seek, hr8]
  simp only [packU32, List.cons_append, List.nil_append]
  norm_num [u32le]
  rw [hr28]
  norm_num
  rw [packBytes_sum hw, packBytes_sum hh]
  simp only [RStream.read, hdrop36]
  rw [List.take_of_length_le (Nat.le_of_lt hshort)]
  simp [Nat.ne_of_lt hshort]

theorem open_xcursor_truncated (st w h xh yh d : Nat) (pix : List Nat)
    (hw : w < 4294967296) (hh : h < 4294967296)
    (hshort : pix.length < w * h * 4) :
    open_xcursor (truncatedFile st w h xh yh d pix) = .error .badReshape := by
  set data := truncatedFile st w h xh yh d pix with hdata
  have hm : data.drop 0 = [88, 99, 117, 114] ++
      ([16, 0, 0, 0] ++ ([0, 0, 1, 0, 1, 0, 0, 0] ++
        (tocBytes [(0xfffd0002, st, 28)] ++ imageChunkBytes st w h xh yh d pix))) := by
    simp [hdata, truncatedFile, xcHeaderBytes, tocBytes, tocEntryBytes, packU32,
      List.append_assoc]
  have hr1 := read_exact data 0 4 _ _ (by simp) hm
  have hdropm := drop_advance data 0 4 _ _ (by simp) hm
  have hr2 := read_exact data 4 4 _ _ (by simp) hdropm
  have hdrop2 := drop_advance data 4 4 _ _ (by simp) hdropm
  have hr3 := read_exact data 8 8 _ _ (by simp) hdrop2
  have hdrop3 := drop_advance data 8 8 _ _ (by simp) hdrop2
  have htoc := parseTOC_eq [(0xfffd0002, st, 28)] data
    (imageChunkBytes st w h xh yh d pix) 16 (by simpa using hdrop3)
    (by norm_num)
  have hd28 : data.drop 28 = imageChunkBytes st w h xh yh d pix := by
    have := drop_advance data 16 12 (tocBytes [(0xfffd0002, st, 28)])
      (imageChunkBytes st w h xh yh d pix)
      (by simp [tocBytes, tocEntryBytes, packU32]) (by simpa using hdrop3)
    simpa using this
  have hchunk := readChunk_image_truncated data 28 28 st w h xh yh d pix
    ChunkTag.image hd28 hw hh hshort
  simp only [open_xcursor, hr1]
  norm_num
  rw [hr2]
  norm_num
  rw [hr3]
  norm_num [u32le]
  have htoc2 : parseTOC ⟨data, 16⟩ 1 = .ok ([(ChunkTag.image, 28)], ⟨data, 28⟩) := by
    simpa [entryTag] using htoc
  rw [htoc2]
  simp only [readChunks, hchunk]

/-! Claim theorems. -/

/-- C1 (code bug at this input): round-tripping a single 2×1 frame
(width 2, height 1) through `save_xcursor` then `open_xcursor` preserves
the frame count, hotspot, duration and the flat RGBA byte sequence, but
returns the frame with width 1 and height 2 — width and height swapped —
because the decoder reshapes the payload as `(width, height, 4)` instead
of `(height, width, 4)` before `Image.fromarray` (xcursor.py line 110).
The decoded frame therefore differs from the original, against the
round-trip claim. -/
theorem roundtrip_swaps_width_height :
    (save_xcursor ⟨some [⟨⟨2, 1, [10, 20, 30, 255, 1, 2, 3, 4]⟩, (5, 6), 77⟩]⟩).bind
        open_xcursor =
      .ok ⟨some [⟨⟨1, 2, [10, 20, 30, 255, 1, 2, 3, 4]⟩, (5, 6), 77⟩]⟩ ∧
    (⟨⟨1, 2, [10, 20, 30, 255, 1, 2, 3, 4]⟩, (5, 6), 77⟩ : CursorFrame) ≠
      ⟨⟨2, 1, [10, 20, 30, 255, 1, 2, 3, 4]⟩, (5, 6), 77⟩ := by
  exact ⟨by decide, by decide⟩

/-- C2: any byte stream whose first 4 bytes are not `X`,`c`,`u`,`r`
(ASCII 88, 99, 117, 114) fails decode at the magic check, regardless of
the remaining content. -/
theorem bad_magic_rejects (data : List Nat)
    (hm : data.take 4 ≠ [88, 99, 117, 114]) :
    open_xcursor data = .error .badMagic := by
  simp only [open_xcursor, RStream.read, List.drop_zero]
  rw [if_neg hm]

/-- Witness for C2 at a concrete stream starting with `MZ..`. -/
theorem bad_magic_rejects_witness :
    open_xcursor [77, 90, 0, 0, 99] = .error .badMagic :=
  bad_magic_rejects [77, 90, 0, 0, 99] (by decide)

/-- C4 counterexample: a table of contents consisting of one entry with
the unrecognized type `0x12345678` at offset 99 retains nothing at the
table-of-contents parsing stage — the retained list is empty, not the
one-element list of `(declared_type, offset)` pairs the claim requires
(the unknown entry cannot even be represented in the retained list's
type, mirroring the source which only ever appends `'comment'` or
`'image'` entries). -/
theorem unknown_entry_not_retained :
    parseTOC ⟨tocEntryBytes 305419896 7 99, 0⟩ 1 =
      .ok ([], ⟨tocEntryBytes 305419896 7 99, 12⟩) ∧
    ([] : List (ChunkTag × Nat)).length ≠ 1 := by
  exact ⟨by decide, by decide⟩

/-- C4 (amended): unknown-typed table entries are dropped during
table-of-contents parsing itself (xcursor.py line 64 `continue`), not
retained for the later per-chunk stage; only entries declared Comment
(`0xfffe0001`) or Image (`0xfffd0002`) are retained, as `(tag, offset)`
pairs in table order. -/
theorem toc_retains_only_known_tags (entries : List (Nat × Nat × Nat))
    (data rest : List Nat) (pos : Nat)
    (hd : data.drop pos = tocBytes entries ++ rest)
    (hb : ∀ e ∈ entries, e.1 < 4294967296 ∧ e.2.2 < 4294967296) :
    parseTOC ⟨data, pos⟩ entries.length =
      .ok (entries.filterMap entryTag, ⟨data, pos + 12 * entries.length⟩) :=
  parseTOC_eq entries data rest pos hd hb

/-- Witness for the amended C4: a three-entry table (Image at 40,
unknown type `0x12345678` at 99, Comment at 80) retains exactly the
Image and Comment entries, in table order. -/
theorem toc_retains_only_known_tags_witness :
    parseTOC ⟨tocBytes [(4294770690, 1, 40), (305419896, 7, 99), (4294836225, 0, 80)], 0⟩ 3 =
      .ok ([(ChunkTag.image, 40), (ChunkTag.comment, 80)],
        ⟨tocBytes [(4294770690, 1, 40), (305419896, 7, 99), (4294836225, 0, 80)], 36⟩) := by
  have h := toc_retains_only_known_tags
    [(4294770690, 1, 40), (305419896, 7, 99), (4294836225, 0, 80)]
    (tocBytes [(4294770690, 1, 40), (305419896, 7, 99), (4294836225, 0, 80)]) [] 0
    (by simp) (by decide)
  simpa [entryTag] using h

/-- C5 counterexample: a successful decode of a valid empty-cursor file
passed as a path opens a handle and never closes it — the lifecycle
trace is `[openFile]` with no `close`, although the claim requires the
codec to close a handle it opened on every exit path. -/
theorem path_decode_never_closes :
    open_xcursor_file (.path [88, 99, 117, 114, 16, 0, 0, 0, 0, 0, 1, 0, 0, 0, 0, 0]) =
      (.ok ⟨some []⟩, [FileOp.openFile]) ∧
    FileOp.close ∉ [FileOp.openFile] := by
  exact ⟨by decide, by decide⟩

/-- C5 (amended): the codec never closes any file handle at all — not
the handles it opens from a path (they are left to the garbage
collector) and, vacuously as the claim's true half states, not handles
passed in already open. -/
theorem codec_never_closes (file : FileArg) (cursor : Cursor) (target : WriteTarget) :
    FileOp.close ∉ (open_xcursor_file file).2 ∧
    FileOp.close ∉ (save_xcursor_file cursor target).2 := by
  constructor
  · cases file <;> simp [open_xcursor_file]
  · cases target <;> simp [save_xcursor_file]

/-- C7: encoding a single 2×1 frame with pixels RGBA(10,20,30,255) and
RGBA(1,2,3,4) produces a 72-byte file (16-byte header + 12-byte table +
36-byte chunk header, so the pixel data of the emitted chunk body starts
at offset 64) whose bytes from offset 64 are BGRA(30,20,10,255) then
BGRA(3,2,1,4): sample bytes 0 and 2 swapped, bytes 1 and 3 in place. -/
theorem encode_writes_bgra_at_pixel_offset :
    (save_xcursor ⟨some [⟨⟨2, 1, [10, 20, 30, 255, 1, 2, 3, 4]⟩, (0, 0), 50⟩]⟩).map
        (fun out => (out.length, out.drop 64)) =
      .ok (72, [30, 20, 10, 255, 3, 2, 1, 4]) := by
  decide

/-- C9: encoding a Cursor with an explicit empty frames list produces
exactly magic `Xcur`, header size 16, version bytes (0,0,1,0) and
`n_entry = 0`, with no table entries or chunk bodies; decoding those 16
bytes back yields a Cursor with zero frames and no error. -/
theorem empty_cursor_roundtrip :
    save_xcursor ⟨some []⟩ =
      .ok [88, 99, 117, 114, 16, 0, 0, 0, 0, 0, 1, 0, 0, 0, 0, 0] ∧
    open_xcursor [88, 99, 117, 114, 16, 0, 0, 0, 0, 0, 1, 0, 0, 0, 0, 0] =
      .ok ⟨some []⟩ := by
  exact ⟨by decide, by decide⟩

/-- C10: a Cursor constructed with no arguments has `frames = none`
(Python `None`), not an empty list; `save_xcursor` on it fails when
computing the entry count (`len(cursor.frames)`, a `TypeError`), while a
Cursor with an explicit empty list produces the valid empty file. -/
theorem default_cursor_frames_none_encoder_fails :
    ({} : Cursor).frames = none ∧
    save_xcursor {} = .error .lenOfNone ∧
    save_xcursor ⟨some []⟩ =
      .ok [88, 99, 117, 114, 16, 0, 0, 0, 0, 0, 1, 0, 0, 0, 0, 0] := by
  exact ⟨rfl, rfl, by decide⟩

/-- C3: decode never returns a partial Cursor with a short or garbage
pixel buffer — every frame of any successfully decoded Cursor carries a
pixel buffer of exactly `width * height * 4` bytes — and a stream that
ends before a declared Image chunk's `w * h * 4`-byte pixel payload is
fully present fails decode with an error (the numpy reshape
`ValueError`, the decode's structural-truncation failure). -/
theorem truncated_stream_fails_no_partial :
    (∀ (data : List Nat) (fs : List CursorFrame),
      open_xcursor data = .ok ⟨some fs⟩ →
      ∀ fr ∈ fs, fr.image.data.length = fr.image.width * fr.image.height * 4) ∧
    (∀ (st w h xh yh d : Nat) (pix : List Nat),
      w < 4294967296 → h < 4294967296 → pix.length < w * h * 4 →
      open_xcursor (truncatedFile st w h xh yh d pix) = .error .badReshape) :=
  ⟨fun _ _ hr => open_xcursor_frames_len hr,
   fun st w h xh yh d pix hw hh hs => open_xcursor_truncated st w h xh yh d pix hw hh hs⟩

/-- Witness for C3: a decoded 1×1 frame has a 4-byte buffer matching its
dimensions, and a hand-built file declaring a 2×1 image but providing
only 3 of the 8 payload bytes fails decode with the reshape error. -/
theorem truncated_stream_fails_no_partial_witness :
    ((⟨⟨1, 1, [3, 2, 1, 4]⟩, (0, 0), 50⟩ : CursorFrame).image.data.length =
      (⟨⟨1, 1, [3, 2, 1, 4]⟩, (0, 0), 50⟩ : CursorFrame).image.width *
        (⟨⟨1, 1, [3, 2, 1, 4]⟩, (0, 0), 50⟩ : CursorFrame).image.height * 4) ∧
    open_xcursor (truncatedFile 2 2 1 0 0 50 [9, 9, 9]) = .error .badReshape := by
  constructor
  · exact truncated_stream_fails_no_partial.1
      (xcHeaderBytes 1 ++ tocEntryBytes 4294770690 1 28 ++
        imageChunkBytes 1 1 1 0 0 50 [1, 2, 3, 4])
      [⟨⟨1, 1, [3, 2, 1, 4]⟩, (0, 0), 50⟩] (by decide)
      ⟨⟨1, 1, [3, 2, 1, 4]⟩, (0, 0), 50⟩ (by simp)
  · exact truncated_stream_fails_no_partial.2 2 2 1 0 0 50 [9, 9, 9]
      (by norm_num) (by norm_num) (by norm_num)

/-- C6: a well-formed file whose table of contents is an Image entry, an
entry with any unrecognized type `u`, then a second Image entry (bodies
well-formed, offsets in range) decodes without error to a Cursor holding
exactly the two image frames, in table order; the unknown entry is
silently skipped (its subtype `su` and offset `pu` are arbitrary). -/
theorem unknown_chunk_between_images_skipped
    (u su pu st1 w1 h1 xh1 yh1 d1 st2 w2 h2 xh2 yh2 d2 : Nat)
    (pix1 pix2 : List Nat)
    (hu : u < 4294967296) (hu1 : u ≠ 4294836225) (hu2 : u ≠ 4294770690)
    (hpu : pu < 4294967296)
    (hw1 : w1 < 4294967296) (hh1 : h1 < 4294967296) (hx1 : xh1 < 4294967296)
    (hy1 : yh1 < 4294967296) (hd1 : d1 < 4294967296)
    (hw2 : w2 < 4294967296) (hh2 : h2 < 4294967296) (hx2 : xh2 < 4294967296)
    (hy2 : yh2 < 4294967296) (hd2 : d2 < 4294967296)
    (hlen1 : pix1.length = w1 * h1 * 4) (hlen2 : pix2.length = w2 * h2 * 4)
    (hoff : 88 + pix1.length < 4294967296) :
    open_xcursor (fileWithUnknownBetween u su pu st1 w1 h1 xh1 yh1 d1 pix1
        st2 w2 h2 xh2 yh2 d2 pix2) =
      .ok ⟨some [⟨⟨h1, w1, swapCh02 pix1⟩, (xh1, yh1), d1⟩,
                 ⟨⟨h2, w2, swapCh02 pix2⟩, (xh2, yh2), d2⟩]⟩ := by
  obtain ⟨data, hdata⟩ : ∃ data, fileWithUnknownBetween u su pu st1 w1 h1 xh1 yh1 d1 pix1
      st2 w2 h2 xh2 yh2 d2 pix2 = data := ⟨_, rfl⟩
  rw [hdata]
  set E : List (Nat × Nat × Nat) :=
    [(4294770690, st1, 52), (u, su, pu), (4294770690, st2, 88 + pix1.length)] with hE
  have hm : data.drop 0 = [88, 99, 117, 114] ++
      ([16, 0, 0, 0] ++ ([0, 0, 1, 0, 3, 0, 0, 0] ++
        (tocBytes E ++
          (imageChunkBytes st1 w1 h1 xh1 yh1 d1 pix1 ++
           imageChunkBytes st2 w2 h2 xh2 yh2 d2 pix2)))) := by
    rw [← hdata]
    simp [hE, fileWithUnknownBetween, xcHeaderBytes, tocBytes, tocEntryBytes,
      packU32, List.append_assoc]
  have hr1 := read_exact data 0 4 _ _ (by simp) hm
  have hdropm := drop_advance data 0 4 _ _ (by simp) hm
  have hr2 := read_exact data 4 4 _ _ (by simp) hdropm
  have hdrop2 := drop_advance data 4 4 _ _ (by simp) hdropm
  have hr3 := read_exact data 8 8 _ _ (by simp) hdrop2
  have hdrop3 := drop_advance data 8 8 _ _ (by simp) hdrop2
  have htoc := parseTOC_eq E data
    (imageChunkBytes st1 w1 h1 xh1 yh1 d1 pix1 ++
      imageChunkBytes st2 w2 h2 xh2 yh2 d2 pix2) 16 (by simpa using hdrop3)
    (by
      intro e he
      simp only [hE, List.mem_cons, List.not_mem_nil, or_false] at he
      rcases he with he | he | he <;> subst he
      · exact ⟨by norm_num, by norm_num⟩
      · exact ⟨hu, hpu⟩
      · exact ⟨by norm_num, hoff⟩)
  have htoc2 : parseTOC ⟨data, 16⟩ 3 =
      .ok ([(ChunkTag.image, 52), (ChunkTag.image, 88 + pix1.length)], ⟨data, 52⟩) := by
    simpa [hE, entryTag, hu1, hu2] using htoc
  have hd52 : data.drop 52 = imageChunkBytes st1 w1 h1 xh1 yh1 d1 pix1 ++
      imageChunkBytes st2 w2 h2 xh2 yh2 d2 pix2 := by
    have h36 := drop_advance data 16 36 (tocBytes E)
      (imageChunkBytes st1 w1 h1 xh1 yh1 d1 pix1 ++
        imageChunkBytes st2 w2 h2 xh2 yh2 d2 pix2)
      (by simp [hE, tocBytes, tocEntryBytes, packU32]) (by simpa using hdrop3)
    simpa using h36
  have hchunk1 := readChunk_image_eq data 52 52 st1 w1 h1 xh1 yh1 d1 pix1
    (imageChunkBytes st2 w2 h2 xh2 yh2 d2 pix2) ChunkTag.image hd52
    hw1 hh1 hx1 hy1 hd1 hlen1
  have hd88 : data.drop (88 + pix1.length) =
      imageChunkBytes st2 w2 h2 xh2 yh2 d2 pix2 ++ [] := by
    have hadv := drop_advance data 52 (36 + pix1.length)
      (imageChunkBytes st1 w1 h1 xh1 yh1 d1 pix1)
      (imageChunkBytes st2 w2 h2 xh2 yh2 d2 pix2)
      (by simp [imageChunkBytes, packU32]; omega) hd52
    have harith : 52 + (36 + pix1.length) = 88 + pix1.length := by ring
    rw [harith] at hadv
    rw [List.append_nil]
    exact hadv
  have hchunk2 := readChunk_image_eq data (52 + 36 + w1 * h1 * 4) (88 + pix1.length)
    st2 w2 h2 xh2 yh2 d2 pix2 [] ChunkTag.image hd88 hw2 hh2 hx2 hy2 hd2 hlen2
  simp only [open_xcursor, hr1]
  norm_num
  rw [hr2]
  norm_num
  rw [hr3]
  norm_num [u32le]
  rw [htoc2]
  simp only [readChunks, hchunk1, hchunk2]

/-- Witness for C6: unknown type `0x12345678` between two 1×1 Image
entries; decode returns exactly the two image frames in table order. -/
theorem unknown_chunk_between_images_skipped_witness :
    open_xcursor (fileWithUnknownBetween 305419896 7 99 1 1 1 0 0 50 [1, 2, 3, 4]
        1 1 1 0 0 60 [5, 6, 7, 8]) =
      .ok ⟨some [⟨⟨1, 1, [3, 2, 1, 4]⟩, (0, 0), 50⟩,
                 ⟨⟨1, 1, [7, 6, 5, 8]⟩, (0, 0), 60⟩]⟩ := by
  have h := unknown_chunk_between_images_skipped 305419896 7 99 1 1 1 0 0 50
    1 1 1 0 0 60 [1, 2, 3, 4] [5, 6, 7, 8] (by decide) (by decide) (by decide)
    (by decide) (by decide) (by decide) (by decide) (by decide) (by decide)
    (by decide) (by decide) (by decide) (by decide) (by decide) (by decide)
    (by decide) (by decide)
  simpa [swapCh02] using h

/-- C8: a file whose two-entry table of contents lists the Image chunks
in reverse physical order (the first table entry points at the chunk
stored last in the file, at offset `76 + pixB.length`; the second entry
at the chunk stored first, at offset 40) decodes by seeking to each
entry's stored offset, producing the frames in table order — entry A's
frame first — not in physical byte order. -/
theorem frames_in_table_order_not_physical
    (stA wA hA xhA yhA dA stB wB hB xhB yhB dB : Nat) (pixA pixB : List Nat)
    (hwA : wA < 4294967296) (hhA : hA < 4294967296) (hxA : xhA < 4294967296)
    (hyA : yhA < 4294967296) (hdA : dA < 4294967296)
    (hwB : wB < 4294967296) (hhB : hB < 4294967296) (hxB : xhB < 4294967296)
    (hyB : yhB < 4294967296) (hdB : dB < 4294967296)
    (hlenA : pixA.length = wA * hA * 4) (hlenB : pixB.length = wB * hB * 4)
    (hoff : 76 + pixB.length < 4294967296) :
    open_xcursor (fileReversePhysical stA wA hA xhA yhA dA pixA
        stB wB hB xhB yhB dB pixB) =
      .ok ⟨some [⟨⟨hA, wA, swapCh02 pixA⟩, (xhA, yhA), dA⟩,
                 ⟨⟨hB, wB, swapCh02 pixB⟩, (xhB, yhB), dB⟩]⟩ := by
  obtain ⟨data, hdata⟩ : ∃ data, fileReversePhysical stA wA hA xhA yhA dA pixA
      stB wB hB xhB yhB dB pixB = data := ⟨_, rfl⟩
  rw [hdata]
  set E : List (Nat × Nat × Nat) :=
    [(4294770690, stA, 76 + pixB.length), (4294770690, stB, 40)] with hE
  have hm : data.drop 0 = [88, 99, 117, 114] ++
      ([16, 0, 0, 0] ++ ([0, 0, 1, 0, 2, 0, 0, 0] ++
        (tocBytes E ++
          (imageChunkBytes stB wB hB xhB yhB dB pixB ++
           imageChunkBytes stA wA hA xhA yhA dA pixA)))) := by
    rw [← hdata]
    simp [hE, fileReversePhysical, xcHeaderBytes, tocBytes, tocEntryBytes,
      packU32, List.append_assoc]
  have hr1 := read_exact data 0 4 _ _ (by simp) hm
  have hdropm := drop_advance data 0 4 _ _ (by simp) hm
  have hr2 := read_exact data 4 4 _ _ (by simp) hdropm
  have hdrop2 := drop_advance data 4 4 _ _ (by simp) hdropm
  have hr3 := read_exact data 8 8 _ _ (by simp) hdrop2
  have hdrop3 := drop_advance data 8 8 _ _ (by simp) hdrop2
  have htoc := parseTOC_eq E data
    (imageChunkBytes stB wB hB xhB yhB dB pixB ++
      imageChunkBytes stA wA hA xhA yhA dA pixA) 16 (by simpa using hdrop3)
    (by
      intro e he
      simp only [hE, List.mem_cons, List.not_mem_nil, or_false] at he
      rcases he with he | he <;> subst he
      · exact ⟨by norm_num, hoff⟩
      · exact ⟨by norm_num, by norm_num⟩)
  have htoc2 : parseTOC ⟨data, 16⟩ 2 =
      .ok ([(ChunkTag.image, 76 + pixB.length), (ChunkTag.image, 40)],
        ⟨data, 40⟩) := by
    simpa [hE, entryTag] using htoc
  have hd40 : data.drop 40 = imageChunkBytes stB wB hB xhB yhB dB pixB ++
      imageChunkBytes stA wA hA xhA yhA dA pixA := by
    have h24 := drop_advance data 16 24 (tocBytes E)
      (imageChunkBytes stB wB hB xhB yhB dB pixB ++
        imageChunkBytes stA wA hA xhA yhA dA pixA)
      (by simp [hE, tocBytes, tocEntryBytes, packU32]) (by simpa using hdrop3)
    simpa using h24
  have hdA76 : data.drop (76 + pixB.length) =
      imageChunkBytes stA wA hA xhA yhA dA pixA ++ [] := by
    have hadv := drop_advance data 40 (36 + pixB.length)
      (imageChunkBytes stB wB hB xhB yhB dB pixB)
      (imageChunkBytes stA wA hA xhA yhA dA pixA)
      (by simp [imageChunkBytes, packU32]; omega) hd40
    have harith : 40 + (36 + pixB.length) = 76 + pixB.length := by ring
    rw [harith] at hadv
    rw [List.append_nil]
    exact hadv
  have hchunkA := readChunk_image_eq data 40 (76 + pixB.length)
    stA wA hA xhA yhA dA pixA [] ChunkTag.image hdA76 hwA hhA hxA hyA hdA hlenA
  have hchunkB := readChunk_image_eq data (76 + pixB.length + 36 + wA * hA * 4) 40
    stB wB hB xhB yhB dB pixB
    (imageChunkBytes stA wA hA xhA yhA dA pixA) ChunkTag.image hd40
    hwB hhB hxB hyB hdB hlenB
  simp only [open_xcursor, hr1]
  norm_num
  rw [hr2]
  norm_num
  rw [hr3]
  norm_num [u32le]
  rw [htoc2]
  simp only [readChunks, hchunkA, hchunkB]

/-- Witness for C8: two 1×1 frames with distinct pixels and durations,
table entries in reverse physical order; the decode lists entry A's
frame (duration 11) before entry B's (duration 22). -/
theorem frames_in_table_order_not_physical_witness :
    open_xcursor (fileReversePhysical 1 1 1 0 0 11 [1, 2, 3, 4]
        1 1 1 0 0 22 [5, 6, 7, 8]) =
      .ok ⟨some [⟨⟨1, 1, [3, 2, 1, 4]⟩, (0, 0), 11⟩,
                 ⟨⟨1, 1, [7, 6, 5, 8]⟩, (0, 0), 22⟩]⟩ := by
  have h := frames_in_table_order_not_physical 1 1 1 0 0 11 1 1 1 0 0 22
    [1, 2, 3, 4] [5, 6, 7, 8] (by decide) (by decide) (by decide) (by decide)
    (by decide) (by decide) (by decide) (by decide) (by decide) (by decide)
    (by decide) (by decide) (by decide)
  simpa [swapCh02] using h
